import Mathlib

/-!
Verification development for the Catapillar core: the token-to-AST parser
(`src/parser/parser.py`) and the AST-to-Python generator
(`src/mapper/python_mapper.py`), shallowly embedded in Lean.

Python dicts for AST nodes become a sum type `Stmt` and structures
`Segment`/`Flow`/`Program`; Python exceptions (`ParseError`, `MapError`)
become `Except String`; the generator's in-place mutation of statement
argument lists (`build_condition` assigns `args[-1] = args[-1].rstrip(":")`
on the very list object stored in the AST node) is made explicit by having
every lowering function return the post-call statement alongside its output,
so `map_program` returns both the generated text and the post-call state of
the `Program` tree it was handed.
-/

namespace Catapillar

/-- A lexer token as consumed by `parse_tokens`: `raw_action` (leading
keyword), `raw_args` (remaining argument strings), `line_state` marker. -/
structure Token where
  raw_action : String
  raw_args : List String
  line_state : String
deriving Repr, DecidableEq

/-- AST statement nodes, the four dict shapes the parser appends:
`Line {action, args, line_state}`, `Block {name, line_state}`,
`Arrow {from, to, direction, line_state}` (fields renamed `src`/`tgt`
because `from` is reserved in Lean), `BLOCK_END {line_state}`. -/
inductive Stmt where
  | line (action : String) (args : List String) (line_state : String)
  | block (name : String) (line_state : String)
  | arrow (src : String) (tgt : String) (direction : String) (line_state : String)
  | blockEnd (line_state : String)
deriving Repr, DecidableEq

/-- `{"type": "Segment", "lines": [...]}`. -/
structure Segment where
  lines : List Stmt
deriving Repr, DecidableEq

/-- `{"type": "Flow", "segments": [...]}`. -/
structure Flow where
  segments : List Segment
deriving Repr, DecidableEq

/-- `{"type": "Program", "flows": [...]}`. -/
structure Program where
  flows : List Flow
deriving Repr, DecidableEq

/-- `ACTION_IDS`: canonical action id to accepted spellings (two alias
sets: English and Chinese), copied from `parser.py`. -/
def ACTION_IDS : List (String × List String) :=
  [ ("PRINT", ["print", "印"])
  , ("SET", ["set", "置"])
  , ("CALL", ["call", "调"])
  , ("DEF", ["def", "定"])
  , ("RETURN", ["return", "回"])
  , ("IF", ["if", "若"])
  , ("ELIF", ["elif", "又若"])
  , ("ELSE", ["else", "否则"])
  , ("WHILE", ["while", "当"])
  , ("FOR", ["for", "扭扭"])
  , ("BREAK", ["break", "断"])
  , ("CONTINUE", ["continue", "续"])
  , ("TRY", ["try", "试"])
  , ("EXCEPT", ["except", "捕"])
  , ("FINALLY", ["finally", "终于"])
  , ("PASS", ["pass", "空"])
  , ("ADD", ["add", "加"])
  , ("SUB", ["sub", "减"])
  , ("MUL", ["mul", "乘"])
  , ("DIV", ["div", "除"])
  ]

/-- `STRUCT_IDS`: structural terminator spellings. -/
def STRUCT_IDS : List (String × List String) :=
  [("BLOCK_END", ["end", "结束", "完了", "终"])]

/-- Decidable equality for `Except` results, so that concrete parse and
generation outcomes can be checked by `decide`. -/
instance instDecEqExcept {ε α : Type} [DecidableEq ε] [DecidableEq α] : DecidableEq (Except ε α) :=
  fun a b =>
    match a, b with
    | .error e, .error f =>
      if h : e = f then .isTrue (by rw [h])
      else .isFalse (by intro hh; injection hh with he; exact h he)
    | .ok x, .ok y =>
      if h : x = y then .isTrue (by rw [h])
      else .isFalse (by intro hh; injection hh with he; exact h he)
    | .error _, .ok _ => .isFalse (by intro hh; exact Except.noConfusion hh)
    | .ok _, .error _ => .isFalse (by intro hh; exact Except.noConfusion hh)

/-- Dict comprehension `{word: id for id, words in table for word in words}`:
look a word up to its canonical id (no word appears twice in the tables, so
first match agrees with the Python dict). -/
def lookupAlias (table : List (String × List String)) (w : String) : Option String :=
  (table.find? (fun p => w ∈ p.2)).map (fun p => p.1)

/-- `ACTION_LOOKUP` as a function: spelling to canonical action id. -/
def ACTION_LOOKUP (w : String) : Option String := lookupAlias ACTION_IDS w

/-- `STRUCT_LOOKUP` as a function: spelling to structural id. -/
def STRUCT_LOOKUP (w : String) : Option String := lookupAlias STRUCT_IDS w

/-- `LINE_STATES = {"~", ">", "<", "!", "?"}`. -/
def LINE_STATES : List String := ["~", ">", "<", "!", "?"]

/-- Python `s.endswith(suffix)`. -/
def py_endswith (s suffix : String) : Bool := suffix.toList.isSuffixOf s.toList

/-- Python `s.startswith(pre)`. -/
def py_startswith (s pre : String) : Bool := pre.toList.isPrefixOf s.toList

/-- Python `s.replace(pat, repl)` on character lists: leftmost-first,
non-overlapping. The fuel argument (instantiated with the text length)
only makes the recursion structural; every step consumes at least one
character whenever `pat` is non-empty, so the fuel never runs out. -/
def py_replace_aux (pat repl : List Char) : Nat → List Char → List Char
  | _, [] => []
  | 0, cs => cs
  | fuel + 1, c :: rest =>
    if pat.isPrefixOf (c :: rest) then
      repl ++ py_replace_aux pat repl fuel (rest.drop (pat.length - 1))
    else c :: py_replace_aux pat repl fuel rest

/-- Python `s.replace(pat, repl)`. -/
def py_replace (s pat repl : String) : String :=
  String.mk (py_replace_aux pat.toList repl.toList s.toList.length s.toList)

/-- `s.rstrip(":")`: drop every trailing colon. -/
def rstrip_colon (s : String) : String :=
  String.mk (s.toList.reverse.dropWhile (fun c => c = ':')).reverse

/-- Python `str.split()` with no separator argument: split on whitespace
runs, dropping empty pieces; `acc` holds the current word reversed. -/
def splitWsAux : List Char → List Char → List String
  | [], acc => if acc.isEmpty then [] else [String.mk acc.reverse]
  | c :: rest, acc =>
    if c.isWhitespace then
      if acc.isEmpty then splitWsAux rest []
      else String.mk acc.reverse :: splitWsAux rest []
    else splitWsAux rest (c :: acc)

/-- Python `s.split()`. -/
def py_split_ws (s : String) : List String := splitWsAux s.toList []

/-- `String.split`-style separator split on a character list: `"1e"` gives
`["1", ""]` and `""` gives `[""]`. -/
def splitOnChar (sep : Char) : List Char → List (List Char)
  | [] => [[]]
  | c :: rest =>
    if c = sep then [] :: splitOnChar sep rest
    else
      match splitOnChar sep rest with
      | [] => [[c]]
      | w :: ws => (c :: w) :: ws

/-- Python `s.strip()` on a character list. -/
def py_strip (cs : List Char) : List Char :=
  ((cs.dropWhile Char.isWhitespace).reverse.dropWhile Char.isWhitespace).reverse

/-- ASCII lowercasing, the part of Python `s.lower()` that matters for
float parsing (`INF`/`NaN`/`1E5`). -/
def asciiLower (c : Char) : Char :=
  if 'A' ≤ c && c ≤ 'Z' then Char.ofNat (c.toNat + 32) else c

/-- Parser accumulator: the segments already pushed onto the (single)
current flow, and the lines of the current segment. -/
structure ParseState where
  flowSegments : List Segment
  curLines : List Stmt
deriving Repr, DecidableEq

/-- The parser's structural check: `raw_action in STRUCT_LOOKUP` and the
looked-up id is `"BLOCK_END"` (the nested `if` pair at the top of the token
loop; the table maps every terminator spelling to `BLOCK_END`, and a
non-`BLOCK_END` structural id would fall through to the ordinary branches,
which is what this flattening expresses). -/
def structHit (t : Token) : Bool :=
  match STRUCT_LOOKUP t.raw_action with
  | some sid => sid == "BLOCK_END"
  | none => false

/-- Segment closing logic (step 5 of the token loop): if the line state is
`">"`, push the current segment onto the flow and start a fresh one. -/
def closeSegment (st : ParseState) (line_state : String) : ParseState :=
  if line_state = ">" then ⟨st.flowSegments ++ [⟨st.curLines⟩], []⟩ else st

/-- One iteration of the `for token in tokens` loop of `parse_tokens`,
with the same branch order as the source: structural check, line-state
validation, arrow-marker scan, colon block-header branch (which `continue`s
before both arrow handling and segment closing), arrow handling, legacy
action fallback. -/
def parseStep (st : ParseState) (t : Token) : Except String ParseState :=
  if structHit t then
    .ok ⟨st.flowSegments, st.curLines ++ [Stmt.blockEnd t.line_state]⟩
  else if t.line_state ∉ LINE_STATES then
    .error ("Invalid line_state: " ++ t.line_state)
  else
    let arrow_type : Option String :=
      if "->" ∈ t.raw_args then some "->"
      else if "<-" ∈ t.raw_args then some "<-"
      else none
    if py_endswith t.raw_action ":" then
      let block_name := t.raw_action.dropRight 1
      if block_name ∈ ["否则", "else"] then
        .ok ⟨st.flowSegments, st.curLines ++ [Stmt.line "ELSE" [] t.line_state]⟩
      else if block_name ∈ ["试", "try"] then
        .ok ⟨st.flowSegments, st.curLines ++ [Stmt.line "TRY" [] t.line_state]⟩
      else if block_name ∈ ["终于", "finally"] then
        .ok ⟨st.flowSegments, st.curLines ++ [Stmt.line "FINALLY" [] t.line_state]⟩
      else
        .ok ⟨st.flowSegments, st.curLines ++ [Stmt.block block_name t.line_state]⟩
    else
      match arrow_type with
      | some arr =>
        let idx := t.raw_args.indexOf arr
        if t.raw_args.length ≤ idx + 1 then
          .error "Arrow missing target"
        else
          let left := t.raw_action
          let right := t.raw_args.getD (idx + 1) ""
          let from_node := if arr = "->" then left else right
          let to_node := if arr = "->" then right else left
          .ok (closeSegment ⟨st.flowSegments, st.curLines ++ [Stmt.arrow from_node to_node arr t.line_state]⟩ t.line_state)
      | none =>
        match ACTION_LOOKUP t.raw_action with
        | none => .error ("Unknown action: " ++ t.raw_action)
        | some action_id =>
          .ok (closeSegment ⟨st.flowSegments, st.curLines ++ [Stmt.line action_id t.raw_args t.line_state]⟩ t.line_state)

/-- The token loop of `parse_tokens`, aborting on the first `ParseError`. -/
def parseLoop : List Token → ParseState → Except String ParseState
  | [], st => .ok st
  | t :: ts, st =>
    match parseStep st t with
    | .error e => .error e
    | .ok st' => parseLoop ts st'

/-- `parse_tokens`: run the token loop from empty accumulators, then flush
a non-empty trailing segment into the flow and a non-empty flow into the
program. -/
def parse_tokens (tokens : List Token) : Except String Program :=
  match parseLoop tokens ⟨[], []⟩ with
  | .error e => .error e
  | .ok st =>
    let segs := if st.curLines ≠ [] then st.flowSegments ++ [⟨st.curLines⟩] else st.flowSegments
    let flows := if segs ≠ [] then [Flow.mk segs] else []
    .ok ⟨flows⟩


/-- Modelled approximation of the character class underlying Python
`str.isidentifier()` start positions (`XID_Start` plus underscore): ASCII
letters, underscore, and the CJK Unified Ideographs block U+4E00..U+9FFF.
This agrees with CPython on every token that occurs in this repository. -/
def isIdentStart (c : Char) : Bool :=
  c.isAlpha || c = '_' || (0x4E00 ≤ c.toNat && c.toNat ≤ 0x9FFF)

/-- Continue positions (`XID_Continue` approximation): start characters and
ASCII digits. -/
def isIdentCont (c : Char) : Bool := isIdentStart c || c.isDigit

/-- `is_valid_identifier(name)` = `name.isidentifier()`: non-empty, first
character a start character, the rest continue characters. -/
def is_valid_identifier (name : String) : Bool :=
  match name.toList with
  | [] => false
  | c :: rest => isIdentStart c && rest.all isIdentCont

/-- A Python digit run with single underscores allowed between digits
(`digit (["_"] digit)*`), on a character list. -/
def digitRun : List Char → Bool
  | [] => true
  | '_' :: c :: rest => c.isDigit && digitRun rest
  | c :: rest => c.isDigit && digitRun rest

/-- Non-empty digit part of a Python float literal. -/
def digitpart : List Char → Bool
  | [] => false
  | c :: rest => c.isDigit && digitRun rest

/-- Mantissa of a Python float literal: `digits`, `digits.`, `digits.digits`
or `.digits`. -/
def mantissaOk (cs : List Char) : Bool :=
  match splitOnChar '.' cs with
  | [a] => digitpart a
  | [a, b] => if a.isEmpty then digitpart b else digitpart a && (b.isEmpty || digitpart b)
  | _ => false

/-- Exponent of a Python float literal: optional sign then digits. -/
def signedDigitpart (cs : List Char) : Bool :=
  match cs with
  | '+' :: rest => digitpart rest
  | '-' :: rest => digitpart rest
  | _ => digitpart cs

/-- `is_numeric(symbol)`: whether CPython `float(symbol)` succeeds.
Modelled by the documented float-literal grammar: surrounding whitespace
stripped, optional sign, then `inf`/`infinity`/`nan` (case-insensitive) or
mantissa with optional exponent; digits are restricted to ASCII. -/
def is_numeric (symbol : String) : Bool :=
  if symbol = "" then false
  else
    let t := (py_strip symbol.toList).map asciiLower
    let t :=
      match t with
      | '+' :: rest => rest
      | '-' :: rest => rest
      | _ => t
    if String.mk t ∈ ["inf", "infinity", "nan"] then true
    else
      match splitOnChar 'e' t with
      | [m] => mantissaOk m
      | [m, ex] => mantissaOk m && signedDigitpart ex
      | _ => false

/-- `to_py_value(symbol)`: lower one Catapillar atom to Python. -/
def to_py_value (symbol : String) : String :=
  if symbol = "" then "\"\""
  else if symbol ∈ ["True", "真"] then "True"
  else if symbol ∈ ["False", "假"] then "False"
  else if symbol = "None" then "None"
  else if is_numeric symbol then symbol
  else if symbol ∈ ["input", "float", "int", "str"] then symbol
  else if is_valid_identifier symbol then symbol
  else "\"" ++ symbol ++ "\""

/-- `to_py_value_for_condition(symbol)`: like `to_py_value` but keeps
comparison operators verbatim and force-quotes `quit`/`exit`. -/
def to_py_value_for_condition (symbol : String) : String :=
  if symbol = "" then "\"\""
  else if symbol ∈ ["True", "真"] then "True"
  else if symbol ∈ ["False", "假"] then "False"
  else if symbol = "None" then "None"
  else if is_numeric symbol then symbol
  else if symbol ∈ ["==", "!=", ">", "<", ">=", "<="] || symbol ∈ ["or", "and"] then symbol
  else if is_valid_identifier symbol then
    if symbol ∈ ["quit", "exit"] then "\"" ++ symbol ++ "\"" else symbol
  else "\"" ++ symbol ++ "\""

/-- The in-place assignment at the top of `build_condition`:
`if args and args[-1].endswith(":"): args[-1] = args[-1].rstrip(":")`,
expressed as the post-assignment content of the list. -/
def build_condition_mutate (args0 : List String) : List String :=
  if !args0.isEmpty && py_endswith (args0.getLastD "") ":" then
    args0.dropLast ++ [rstrip_colon (args0.getLastD "")]
  else args0

/-- `build_condition(args)`: assemble an `if/elif/while` condition. The
source mutates `args` in place (see `build_condition_mutate`), so this
embedding returns the condition text together with the post-call content
of the args list. -/
def build_condition (args0 : List String) : String × List String :=
  let args := build_condition_mutate args0
  if 2 ≤ args.length && is_valid_identifier (args.getD 0 "")
      && !(args.contains "是") && !(args.contains "或") then
    (args.getD 0 "" ++ "(" ++ String.intercalate ", " ((args.drop 1).map to_py_value) ++ ")", args)
  else
    let condition_str := String.intercalate " " args
    let condition_str :=
      py_replace (py_replace (py_replace (py_replace condition_str " 是 " " == ") " 或 " " or ") " 且 " " and ") " 不是 " " != "
    let parts := py_split_ws condition_str
    let result_parts := parts.map (fun part =>
      if ["==", "!=", "or", "and", ">", "<", ">=", "<="].contains part then part
      else to_py_value_for_condition part)
    (String.intercalate " " result_parts, args)

/-- `IndentContext`: the indentation tracker. `indent_str` is the constant
`"    "`; `level` is a Python int, so it is modelled as `Int` and the
saturation guard in `dedent` is explicit. -/
structure IndentContext where
  level : Int
  last_was_block_end : Bool
deriving Repr, DecidableEq

/-- `indent()`: increase the level by one. -/
def IndentContext.indent (c : IndentContext) : IndentContext :=
  ⟨c.level + 1, c.last_was_block_end⟩

/-- `dedent()`: decrease the level by one only when it is positive. -/
def IndentContext.dedent (c : IndentContext) : IndentContext :=
  if c.level > 0 then ⟨c.level - 1, c.last_was_block_end⟩ else c

/-- `get_indent()`: `"    " * level` (empty for non-positive levels). -/
def IndentContext.get_indent (c : IndentContext) : String :=
  String.join (List.replicate c.level.toNat "    ")

/-- `map_def`: one `def name(params):` header line, then indent. -/
def map_def (args : List String) (ctx : IndentContext) : Except String (List String × IndentContext) :=
  if args = [] then .error "DEF expects at least a function name"
  else
    let func_name := rstrip_colon (args.getD 0 "")
    let param_str :=
      if args.length = 1 then ""
      else String.intercalate ", " ((args.drop 1).map rstrip_colon)
    .ok ([ctx.get_indent ++ "def " ++ func_name ++ "(" ++ param_str ++ "):"], ctx.indent)

/-- `map_if`: one `if cond:` header line, then indent; returns the
post-call args (mutated by `build_condition`). -/
def map_if (args : List String) (ctx : IndentContext) : Except String (List String × List String × IndentContext) :=
  if args = [] then .error "IF expects a condition"
  else
    let p := build_condition args
    .ok ([ctx.get_indent ++ "if " ++ p.1 ++ ":"], p.2, ctx.indent)

/-- `map_elif`: one `elif cond:` header line, then indent. -/
def map_elif (args : List String) (ctx : IndentContext) : Except String (List String × List String × IndentContext) :=
  if args = [] then .error "ELIF expects a condition"
  else
    let p := build_condition args
    .ok ([ctx.get_indent ++ "elif " ++ p.1 ++ ":"], p.2, ctx.indent)

/-- `map_while`: one `while cond:` header line, then indent. -/
def map_while (args : List String) (ctx : IndentContext) : Except String (List String × List String × IndentContext) :=
  if args = [] then .error "WHILE expects a condition"
  else
    let p := build_condition args
    .ok ([ctx.get_indent ++ "while " ++ p.1 ++ ":"], p.2, ctx.indent)

/-- `map_else`: the `else:` header, then indent. -/
def map_else (ctx : IndentContext) : List String × IndentContext :=
  ([ctx.get_indent ++ "else:"], ctx.indent)

/-- `map_try`: the `try:` header, then indent. -/
def map_try (ctx : IndentContext) : List String × IndentContext :=
  ([ctx.get_indent ++ "try:"], ctx.indent)

/-- `map_finally`: the `finally:` header, then indent. -/
def map_finally (ctx : IndentContext) : List String × IndentContext :=
  ([ctx.get_indent ++ "finally:"], ctx.indent)

/-- `map_except`: `except:` or `except Name:` with the two fixed Chinese
exception names mapped to Python names, then indent. -/
def map_except (args : List String) (ctx : IndentContext) : List String × IndentContext :=
  match args with
  | [] => ([ctx.get_indent ++ "except:"], ctx.indent)
  | e :: _ =>
    let exc := rstrip_colon e
    let py_exception :=
      if exc = "零除错误" then "ZeroDivisionError"
      else if exc = "其他错误" then "Exception"
      else exc
    ([ctx.get_indent ++ "except " ++ py_exception ++ ":"], ctx.indent)

/-- `map_for`: `for var in iterable:` with an optional literal `in` token
skipped, then indent. -/
def map_for (args : List String) (ctx : IndentContext) : Except String (List String × IndentContext) :=
  if args.length < 3 then .error "FOR expects: variable in iterable"
  else
    let var := args.getD 0 ""
    let iterable :=
      if args.getD 1 "" = "in" then rstrip_colon (String.intercalate " " (args.drop 2))
      else rstrip_colon (String.intercalate " " (args.drop 1))
    .ok ([ctx.get_indent ++ "for " ++ var ++ " in " ++ iterable ++ ":"], ctx.indent)

/-- `map_return`: bare `return` or `return value`. -/
def map_return (args : List String) : String :=
  if args = [] then "return"
  else "return " ++ to_py_value (String.intercalate " " args)

/-- The escaping applied by `map_print` to a joined literal: double every
backslash, then escape every double quote. -/
def escape_print (literal : String) : String :=
  py_replace (py_replace literal "\\" "\\\\") "\"" "\\\""

/-- `map_print`: `print()`, `print(x)` for one identifier argument, or one
escaped string literal of all arguments joined with spaces. -/
def map_print (args : List String) : String :=
  if args = [] then "print()"
  else if args.length = 1 && is_valid_identifier (args.getD 0 "") then
    "print(" ++ args.getD 0 "" ++ ")"
  else
    "print(\"" ++ escape_print (String.intercalate " " args) ++ "\")"

/-- `map_set`: assignment with dispatch on argument count and on whether
the second argument is an arithmetic-operator alias. -/
def map_set (args : List String) : Except String String :=
  if args.length < 2 then .error "SET expects at least 2 arguments: variable value"
  else
    let name := args.getD 0 ""
    if !is_valid_identifier name then .error ("Invalid variable name: " ++ name)
    else if args.length = 2 then
      let value_arg := args.getD 1 ""
      let value :=
        if is_valid_identifier value_arg
            && value_arg ∈ ["读数", "读运算符", "input", "float", "int", "str"] then
          value_arg ++ "()"
        else to_py_value value_arg
      .ok (name ++ " = " ++ value)
    else if args.length = 3 then
      let func_or_op := args.getD 1 ""
      let third_arg := args.getD 2 ""
      if func_or_op ∈ ["加", "add"] then .error "ADD in SET expects 4 args: 置 result 加 left right"
      else if func_or_op ∈ ["减", "sub"] then .error "SUB in SET expects 4 args: 置 result 减 left right"
      else if func_or_op ∈ ["乘", "mul"] then .error "MUL in SET expects 4 args: 置 result 乘 left right"
      else if func_or_op ∈ ["除", "div"] then .error "DIV in SET expects 4 args: 置 result 除 left right"
      else .ok (name ++ " = " ++ func_or_op ++ "(" ++ to_py_value third_arg ++ ")")
    else
      let operation := args.getD 1 ""
      if operation ∈ ["加", "add"] then
        if args.length ≠ 4 then .error "ADD in SET expects: 置 result 加 left right"
        else .ok (name ++ " = " ++ to_py_value (args.getD 2 "") ++ " + " ++ to_py_value (args.getD 3 ""))
      else if operation ∈ ["减", "sub"] then
        if args.length ≠ 4 then .error "SUB in SET expects: 置 result 减 left right"
        else .ok (name ++ " = " ++ to_py_value (args.getD 2 "") ++ " - " ++ to_py_value (args.getD 3 ""))
      else if operation ∈ ["乘", "mul"] then
        if args.length ≠ 4 then .error "MUL in SET expects: 置 result 乘 left right"
        else .ok (name ++ " = " ++ to_py_value (args.getD 2 "") ++ " * " ++ to_py_value (args.getD 3 ""))
      else if operation ∈ ["除", "div"] then
        if args.length ≠ 4 then .error "DIV in SET expects: 置 result 除 left right"
        else .ok (name ++ " = " ++ to_py_value (args.getD 2 "") ++ " / " ++ to_py_value (args.getD 3 ""))
      else
        let func := args.getD 1 ""
        let func_args := (args.drop 2).map to_py_value
        .ok (name ++ " = " ++ func ++ "(" ++ String.intercalate ", " func_args ++ ")")

/-- `map_call`: `func(lowered args...)`. -/
def map_call (args : List String) : Except String String :=
  if args = [] then .error "CALL expects at least a function name"
  else .ok (args.getD 0 "" ++ "(" ++ String.intercalate ", " ((args.drop 1).map to_py_value) ++ ")")

/-- `map_arithmetic`: `result = left OP right`, exactly three arguments. -/
def map_arithmetic (args : List String) (operator : String) : Except String String :=
  match args with
  | [result, left, right] =>
    if !is_valid_identifier result then .error ("Invalid result variable: " ++ result)
    else .ok (result ++ " = " ++ to_py_value left ++ " " ++ operator ++ " " ++ to_py_value right)
  | _ => .error "Arithmetic operation expects 3 arguments: result left right"

/-- `map_line`: per-action dispatch, in the source's order of checks.
Returns the emitted lines, the post-call statement (args possibly mutated
through `build_condition`) and the updated tracker. -/
def map_line (stmt : Stmt) (ctx : IndentContext) : Except String (List String × Stmt × IndentContext) :=
  match stmt with
  | Stmt.line action args ls =>
    let indent := ctx.get_indent
    match action with
    | "DEF" =>
      match map_def args ctx with
      | .error e => .error e
      | .ok (lines, c) => .ok (lines, Stmt.line action args ls, c)
    | "IF" =>
      match map_if args ctx with
      | .error e => .error e
      | .ok (lines, args2, c) => .ok (lines, Stmt.line action args2 ls, c)
    | "ELIF" =>
      match map_elif args ctx with
      | .error e => .error e
      | .ok (lines, args2, c) => .ok (lines, Stmt.line action args2 ls, c)
    | "ELSE" =>
      let p := map_else ctx
      .ok (p.1, Stmt.line action args ls, p.2)
    | "WHILE" =>
      match map_while args ctx with
      | .error e => .error e
      | .ok (lines, args2, c) => .ok (lines, Stmt.line action args2 ls, c)
    | "FOR" =>
      match map_for args ctx with
      | .error e => .error e
      | .ok (lines, c) => .ok (lines, Stmt.line action args ls, c)
    | "TRY" =>
      let p := map_try ctx
      .ok (p.1, Stmt.line action args ls, p.2)
    | "EXCEPT" =>
      let p := map_except args ctx
      .ok (p.1, Stmt.line action args ls, p.2)
    | "FINALLY" =>
      let p := map_finally ctx
      .ok (p.1, Stmt.line action args ls, p.2)
    | "RETURN" =>
      .ok ([indent ++ map_return args], Stmt.line action args ls, ctx)
    | "BREAK" =>
      .ok ([indent ++ "break"], Stmt.line action args ls, ctx)
    | "CONTINUE" =>
      .ok ([indent ++ "continue"], Stmt.line action args ls, ctx)
    | "PASS" =>
      .ok ([indent ++ "pass"], Stmt.line action args ls, ctx)
    | "PRINT" =>
      .ok ([indent ++ map_print args], Stmt.line action args ls, ctx)
    | "SET" =>
      match map_set args with
      | .error e => .error e
      | .ok v => .ok ([indent ++ v], Stmt.line action args ls, ctx)
    | "CALL" =>
      match map_call args with
      | .error e => .error e
      | .ok v => .ok ([indent ++ v], Stmt.line action args ls, ctx)
    | "ADD" =>
      match map_arithmetic args "+" with
      | .error e => .error e
      | .ok v => .ok ([indent ++ v], Stmt.line action args ls, ctx)
    | "SUB" =>
      match map_arithmetic args "-" with
      | .error e => .error e
      | .ok v => .ok ([indent ++ v], Stmt.line action args ls, ctx)
    | "MUL" =>
      match map_arithmetic args "*" with
      | .error e => .error e
      | .ok v => .ok ([indent ++ v], Stmt.line action args ls, ctx)
    | "DIV" =>
      match map_arithmetic args "/" with
      | .error e => .error e
      | .ok v => .ok ([indent ++ v], Stmt.line action args ls, ctx)
    | _ => .error ("Unhandled ActionID: " ++ action)
  | _ => .error "Expected Line node"

/-- Whether `line.get("action")` is one of the four continuation keywords
checked by `map_line_with_block_end_tracking`. -/
def is_continuation (stmt : Stmt) : Bool :=
  match stmt with
  | Stmt.line a _ _ => a ∈ ["ELIF", "ELSE", "EXCEPT", "FINALLY"]
  | _ => false

/-- `map_line_with_block_end_tracking`: dedent once before a continuation
keyword when the previous statement was not an explicit `BLOCK_END`, then
dispatch to `map_line`. -/
def map_line_with_block_end_tracking (stmt : Stmt) (ctx : IndentContext) : Except String (List String × Stmt × IndentContext) :=
  let ctx := if is_continuation stmt && !ctx.last_was_block_end then ctx.dedent else ctx
  map_line stmt ctx

/-- `map_block`: placeholder, produces no output lines. -/
def map_block (_ctx : IndentContext) : List String := []

/-- `map_statement`: dispatch on statement kind. `Line` resets the
`last_was_block_end` flag after lowering, `Block` resets it before its
no-op lowering, `BLOCK_END` dedents and sets it, `Arrow` returns without
touching the tracker at all. -/
def map_statement (stmt : Stmt) (ctx : IndentContext) : Except String (List String × Stmt × IndentContext) :=
  match stmt with
  | Stmt.line _ _ _ =>
    match map_line_with_block_end_tracking stmt ctx with
    | .error e => .error e
    | .ok (l, s, c) => .ok (l, s, ⟨c.level, false⟩)
  | Stmt.block _ _ => .ok (map_block ctx, stmt, ⟨ctx.level, false⟩)
  | Stmt.blockEnd _ => .ok ([], stmt, ⟨ctx.dedent.level, true⟩)
  | Stmt.arrow _ _ _ _ => .ok ([], stmt, ctx)

/-- The statement loop of `map_segment`: thread the tracker, concatenate
output lines, collect the post-call statements. -/
def map_stmts : List Stmt → IndentContext → Except String (List String × List Stmt × IndentContext)
  | [], ctx => .ok ([], [], ctx)
  | s :: rest, ctx =>
    match map_statement s ctx with
    | .error e => .error e
    | .ok (l1, s1, c1) =>
      match map_stmts rest c1 with
      | .error e => .error e
      | .ok (l2, rest', c2) => .ok (l1 ++ l2, s1 :: rest', c2)

/-- `map_segment`. -/
def map_segment (seg : Segment) (ctx : IndentContext) : Except String (List String × Segment × IndentContext) :=
  match map_stmts seg.lines ctx with
  | .error e => .error e
  | .ok (l, ss, c) => .ok (l, ⟨ss⟩, c)

/-- The segment loop of `map_flow`. -/
def map_segments : List Segment → IndentContext → Except String (List String × List Segment × IndentContext)
  | [], ctx => .ok ([], [], ctx)
  | s :: rest, ctx =>
    match map_segment s ctx with
    | .error e => .error e
    | .ok (l1, s1, c1) =>
      match map_segments rest c1 with
      | .error e => .error e
      | .ok (l2, rest', c2) => .ok (l1 ++ l2, s1 :: rest', c2)

/-- `map_flow`. -/
def map_flow (f : Flow) (ctx : IndentContext) : Except String (List String × Flow × IndentContext) :=
  match map_segments f.segments ctx with
  | .error e => .error e
  | .ok (l, ss, c) => .ok (l, ⟨ss⟩, c)

/-- The flow loop of `map_program`. -/
def map_flows : List Flow → IndentContext → Except String (List String × List Flow × IndentContext)
  | [], ctx => .ok ([], [], ctx)
  | f :: rest, ctx =>
    match map_flow f ctx with
    | .error e => .error e
    | .ok (l1, f1, c1) =>
      match map_flows rest c1 with
      | .error e => .error e
      | .ok (l2, rest', c2) => .ok (l1 ++ l2, f1 :: rest', c2)

/-- `map_program`: fresh tracker (`level 0`, flag unset), lower every flow,
join the lines with newlines. The second component is the post-call state
of the input `Program` tree (the source mutates it in place through
`build_condition`). -/
def map_program (p : Program) : Except String (String × Program) :=
  match map_flows p.flows ⟨0, false⟩ with
  | .error e => .error e
  | .ok (lines, flows', _) => .ok (String.intercalate "\n" lines, ⟨flows'⟩)

/-- The exact in-place mutation a generation pass applies to a statement:
`build_condition` rewrites `args[-1]` to its colon-stripped form, and it is
reached exactly for `IF`/`ELIF`/`WHILE` lines (with a non-empty, colon-ended
last argument); every other statement is left untouched. -/
def condMutate (s : Stmt) : Stmt :=
  match s with
  | Stmt.line a args ls =>
    if a = "IF" || a = "ELIF" || a = "WHILE" then
      Stmt.line a (build_condition_mutate args) ls
    else Stmt.line a args ls
  | s => s

/-- `condMutate` applied to every statement of a program. -/
def progMutate (p : Program) : Program :=
  ⟨p.flows.map (fun f => ⟨f.segments.map (fun s => ⟨s.lines.map condMutate⟩)⟩)⟩

/-! ## Theorems -/

/-! Shared helper lemmas about the generator: the second component of every
lowering result is the post-call statement, and the tracker is only ever
touched through `indent`/`dedent`. -/

lemma build_condition_snd (args : List String) :
    (build_condition args).2 = build_condition_mutate args := by
  simp only [build_condition]
  split <;> rfl

lemma map_def_ok {args : List String} {ctx : IndentContext} {l : List String}
    {c : IndentContext} (h : map_def args ctx = .ok (l, c)) : c = ctx.indent := by
  unfold map_def at h
  split at h
  · exact absurd h (by simp)
  · simp only [Except.ok.injEq, Prod.mk.injEq] at h
    exact h.2.symm

lemma map_if_ok {args : List String} {ctx : IndentContext} {l : List String}
    {a2 : List String} {c : IndentContext} (h : map_if args ctx = .ok (l, a2, c)) :
    c = ctx.indent ∧ a2 = build_condition_mutate args := by
  unfold map_if at h
  split at h
  · exact absurd h (by simp)
  · simp only [Except.ok.injEq, Prod.mk.injEq] at h
    exact ⟨h.2.2.symm, h.2.1.symm.trans (build_condition_snd args)⟩

lemma map_elif_ok {args : List String} {ctx : IndentContext} {l : List String}
    {a2 : List String} {c : IndentContext} (h : map_elif args ctx = .ok (l, a2, c)) :
    c = ctx.indent ∧ a2 = build_condition_mutate args := by
  unfold map_elif at h
  split at h
  · exact absurd h (by simp)
  · simp only [Except.ok.injEq, Prod.mk.injEq] at h
    exact ⟨h.2.2.symm, h.2.1.symm.trans (build_condition_snd args)⟩

lemma map_while_ok {args : List String} {ctx : IndentContext} {l : List String}
    {a2 : List String} {c : IndentContext} (h : map_while args ctx = .ok (l, a2, c)) :
    c = ctx.indent ∧ a2 = build_condition_mutate args := by
  unfold map_while at h
  split at h
  · exact absurd h (by simp)
  · simp only [Except.ok.injEq, Prod.mk.injEq] at h
    exact ⟨h.2.2.symm, h.2.1.symm.trans (build_condition_snd args)⟩

lemma map_for_ok {args : List String} {ctx : IndentContext} {l : List String}
    {c : IndentContext} (h : map_for args ctx = .ok (l, c)) : c = ctx.indent := by
  unfold map_for at h
  split at h
  · exact absurd h (by simp)
  · simp only [Except.ok.injEq, Prod.mk.injEq] at h
    exact h.2.symm

lemma map_except_snd (args : List String) (ctx : IndentContext) :
    (map_except args ctx).2 = ctx.indent := by
  cases args <;> rfl

/-- `map_line` only moves the tracker to `ctx` or `ctx.indent`, and its
post-call statement is exactly the `condMutate` image of the input. -/
lemma map_line_spec {stmt : Stmt} {ctx : IndentContext} {l : List String}
    {s : Stmt} {c' : IndentContext} (h : map_line stmt ctx = .ok (l, s, c')) :
    (c' = ctx ∨ c' = ctx.indent) ∧ s = condMutate stmt := by
  cases stmt with
  | line a args ls =>
    simp only [map_line] at h
    split at h
    · -- DEF
      split at h
      · exact absurd h (by simp)
      · rename_i lines c heq
        simp only [Except.ok.injEq, Prod.mk.injEq] at h
        obtain ⟨-, rfl, rfl⟩ := h
        exact ⟨Or.inr (map_def_ok heq), by simp [condMutate]⟩
    · -- IF
      split at h
      · exact absurd h (by simp)
      · rename_i lines a2 c heq
        simp only [Except.ok.injEq, Prod.mk.injEq] at h
        obtain ⟨-, rfl, rfl⟩ := h
        obtain ⟨hc, ha2⟩ := map_if_ok heq
        exact ⟨Or.inr hc, by simp [condMutate, ha2]⟩
    · -- ELIF
      split at h
      · exact absurd h (by simp)
      · rename_i lines a2 c heq
        simp only [Except.ok.injEq, Prod.mk.injEq] at h
        obtain ⟨-, rfl, rfl⟩ := h
        obtain ⟨hc, ha2⟩ := map_elif_ok heq
        exact ⟨Or.inr hc, by simp [condMutate, ha2]⟩
    · -- ELSE
      simp only [map_else, Except.ok.injEq, Prod.mk.injEq] at h
      obtain ⟨-, rfl, rfl⟩ := h
      exact ⟨Or.inr rfl, by simp [condMutate]⟩
    · -- WHILE
      split at h
      · exact absurd h (by simp)
      · rename_i lines a2 c heq
        simp only [Except.ok.injEq, Prod.mk.injEq] at h
        obtain ⟨-, rfl, rfl⟩ := h
        obtain ⟨hc, ha2⟩ := map_while_ok heq
        exact ⟨Or.inr hc, by simp [condMutate, ha2]⟩
    · -- FOR
      split at h
      · exact absurd h (by simp)
      · rename_i lines c heq
        simp only [Except.ok.injEq, Prod.mk.injEq] at h
        obtain ⟨-, rfl, rfl⟩ := h
        exact ⟨Or.inr (map_for_ok heq), by simp [condMutate]⟩
    · -- TRY
      simp only [map_try, Except.ok.injEq, Prod.mk.injEq] at h
      obtain ⟨-, rfl, rfl⟩ := h
      exact ⟨Or.inr rfl, by simp [condMutate]⟩
    · -- EXCEPT
      simp only [Except.ok.injEq, Prod.mk.injEq] at h
      obtain ⟨-, rfl, rfl⟩ := h
      exact ⟨Or.inr (map_except_snd args ctx), by simp [condMutate]⟩
    · -- FINALLY
      simp only [map_finally, Except.ok.injEq, Prod.mk.injEq] at h
      obtain ⟨-, rfl, rfl⟩ := h
      exact ⟨Or.inr rfl, by simp [condMutate]⟩
    · -- RETURN
      simp only [Except.ok.injEq, Prod.mk.injEq] at h
      obtain ⟨-, rfl, rfl⟩ := h
      exact ⟨Or.inl rfl, by simp [condMutate]⟩
    · -- BREAK
      simp only [Except.ok.injEq, Prod.mk.injEq] at h
      obtain ⟨-, rfl, rfl⟩ := h
      exact ⟨Or.inl rfl, by simp [condMutate]⟩
    · -- CONTINUE
      simp only [Except.ok.injEq, Prod.mk.injEq] at h
      obtain ⟨-, rfl, rfl⟩ := h
      exact ⟨Or.inl rfl, by simp [condMutate]⟩
    · -- PASS
      simp only [Except.ok.injEq, Prod.mk.injEq] at h
      obtain ⟨-, rfl, rfl⟩ := h
      exact ⟨Or.inl rfl, by simp [condMutate]⟩
    · -- PRINT
      simp only [Except.ok.injEq, Prod.mk.injEq] at h
      obtain ⟨-, rfl, rfl⟩ := h
      exact ⟨Or.inl rfl, by simp [condMutate]⟩
    · -- SET
      split at h
      · exact absurd h (by simp)
      · simp only [Except.ok.injEq, Prod.mk.injEq] at h
        obtain ⟨-, rfl, rfl⟩ := h
        exact ⟨Or.inl rfl, by simp [condMutate]⟩
    · -- CALL
      split at h
      · exact absurd h (by simp)
      · simp only [Except.ok.injEq, Prod.mk.injEq] at h
        obtain ⟨-, rfl, rfl⟩ := h
        exact ⟨Or.inl rfl, by simp [condMutate]⟩
    · -- ADD
      split at h
      · exact absurd h (by simp)
      · simp only [Except.ok.injEq, Prod.mk.injEq] at h
        obtain ⟨-, rfl, rfl⟩ := h
        exact ⟨Or.inl rfl, by simp [condMutate]⟩
    · -- SUB
      split at h
      · exact absurd h (by simp)
      · simp only [Except.ok.injEq, Prod.mk.injEq] at h
        obtain ⟨-, rfl, rfl⟩ := h
        exact ⟨Or.inl rfl, by simp [condMutate]⟩
    · -- MUL
      split at h
      · exact absurd h (by simp)
      · simp only [Except.ok.injEq, Prod.mk.injEq] at h
        obtain ⟨-, rfl, rfl⟩ := h
        exact ⟨Or.inl rfl, by simp [condMutate]⟩
    · -- DIV
      split at h
      · exact absurd h (by simp)
      · simp only [Except.ok.injEq, Prod.mk.injEq] at h
        obtain ⟨-, rfl, rfl⟩ := h
        exact ⟨Or.inl rfl, by simp [condMutate]⟩
    · -- default
      exact absurd h (by simp)
  | block n ls => exact absurd h (by simp [map_line])
  | arrow a b d ls => exact absurd h (by simp [map_line])
  | blockEnd ls => exact absurd h (by simp [map_line])

lemma dedent_level_nonneg {c : IndentContext} (h : 0 ≤ c.level) :
    0 ≤ c.dedent.level := by
  unfold IndentContext.dedent
  split
  · rename_i hp
    simp only
    omega
  · exact h

lemma mlwbet_spec {stmt : Stmt} {ctx : IndentContext} {l : List String}
    {s : Stmt} {c' : IndentContext}
    (h : map_line_with_block_end_tracking stmt ctx = .ok (l, s, c')) :
    ((c' = ctx ∨ c' = ctx.indent) ∨ (c' = ctx.dedent ∨ c' = ctx.dedent.indent))
    ∧ s = condMutate stmt := by
  simp only [map_line_with_block_end_tracking] at h
  cases hb : (is_continuation stmt && !ctx.last_was_block_end) <;> rw [hb] at h
  · rw [if_neg Bool.false_ne_true] at h
    have := map_line_spec h
    exact ⟨Or.inl this.1, this.2⟩
  · rw [if_pos rfl] at h
    have := map_line_spec h
    exact ⟨Or.inr this.1, this.2⟩

/-- `map_statement`'s post-call statement is the `condMutate` image of the
input, and it never drives a non-negative tracker level negative. -/
lemma map_statement_spec {stmt : Stmt} {ctx : IndentContext} {l : List String}
    {s : Stmt} {c' : IndentContext} (h : map_statement stmt ctx = .ok (l, s, c')) :
    s = condMutate stmt ∧ (0 ≤ ctx.level → 0 ≤ c'.level) := by
  cases stmt with
  | line a args ls =>
    simp only [map_statement] at h
    split at h
    · exact absurd h (by simp)
    · rename_i l1 s1 c heq
      simp only [Except.ok.injEq, Prod.mk.injEq] at h
      obtain ⟨-, rfl, rfl⟩ := h
      obtain ⟨hctx, hs⟩ := mlwbet_spec heq
      refine ⟨hs, fun h0 => ?_⟩
      have hd : 0 ≤ ctx.dedent.level := dedent_level_nonneg h0
      rcases hctx with (rfl | rfl) | (rfl | rfl)
      · exact h0
      · simp only [IndentContext.indent]
        omega
      · exact hd
      · simp only [IndentContext.indent]
        omega
  | block n ls =>
    simp only [map_statement, Except.ok.injEq, Prod.mk.injEq] at h
    obtain ⟨-, rfl, rfl⟩ := h
    exact ⟨by simp [condMutate], fun h0 => h0⟩
  | blockEnd ls =>
    simp only [map_statement, Except.ok.injEq, Prod.mk.injEq] at h
    obtain ⟨-, rfl, rfl⟩ := h
    exact ⟨by simp [condMutate], fun h0 => dedent_level_nonneg h0⟩
  | arrow a b d ls =>
    simp only [map_statement, Except.ok.injEq, Prod.mk.injEq] at h
    obtain ⟨-, rfl, rfl⟩ := h
    exact ⟨by simp [condMutate], fun h0 => h0⟩

lemma map_stmts_spec {ss : List Stmt} : ∀ {ctx : IndentContext} {l : List String}
    {ss' : List Stmt} {c' : IndentContext}, map_stmts ss ctx = .ok (l, ss', c') →
    ss' = ss.map condMutate ∧ (0 ≤ ctx.level → 0 ≤ c'.level) := by
  induction ss with
  | nil =>
    intro ctx l ss' c' h
    simp only [map_stmts, Except.ok.injEq, Prod.mk.injEq] at h
    obtain ⟨-, rfl, rfl⟩ := h
    exact ⟨rfl, fun h0 => h0⟩
  | cons s rest ih =>
    intro ctx l ss' c' h
    simp only [map_stmts] at h
    split at h
    · exact absurd h (by simp)
    · rename_i l1 s1 c1 heq1
      split at h
      · exact absurd h (by simp)
      · rename_i l2 rest2 c2 heq2
        simp only [Except.ok.injEq, Prod.mk.injEq] at h
        obtain ⟨-, rfl, rfl⟩ := h
        obtain ⟨hs1, hlvl1⟩ := map_statement_spec heq1
        obtain ⟨hrest, hlvl2⟩ := ih heq2
        exact ⟨by simp [hs1, hrest], fun h0 => hlvl2 (hlvl1 h0)⟩

lemma map_segments_spec {ss : List Segment} : ∀ {ctx : IndentContext} {l : List String}
    {ss' : List Segment} {c' : IndentContext}, map_segments ss ctx = .ok (l, ss', c') →
    ss' = ss.map (fun seg => ⟨seg.lines.map condMutate⟩)
    ∧ (0 ≤ ctx.level → 0 ≤ c'.level) := by
  induction ss with
  | nil =>
    intro ctx l ss' c' h
    simp only [map_segments, Except.ok.injEq, Prod.mk.injEq] at h
    obtain ⟨-, rfl, rfl⟩ := h
    exact ⟨rfl, fun h0 => h0⟩
  | cons s rest ih =>
    intro ctx l ss' c' h
    simp only [map_segments] at h
    split at h
    · exact absurd h (by simp)
    · rename_i l1 s1 c1 heq1
      split at h
      · exact absurd h (by simp)
      · rename_i l2 rest2 c2 heq2
        simp only [Except.ok.injEq, Prod.mk.injEq] at h
        obtain ⟨-, rfl, rfl⟩ := h
        simp only [map_segment] at heq1
        split at heq1
        · exact absurd heq1 (by simp)
        · rename_i l0 ss0 c0 heq0
          simp only [Except.ok.injEq, Prod.mk.injEq] at heq1
          obtain ⟨-, rfl, rfl⟩ := heq1
          obtain ⟨hs0, hlvl0⟩ := map_stmts_spec heq0
          obtain ⟨hrest, hlvl2⟩ := ih heq2
          exact ⟨by simp [hs0, hrest], fun h0 => hlvl2 (hlvl0 h0)⟩

lemma map_flows_spec {fs : List Flow} : ∀ {ctx : IndentContext} {l : List String}
    {fs' : List Flow} {c' : IndentContext}, map_flows fs ctx = .ok (l, fs', c') →
    fs' = fs.map (fun f => ⟨f.segments.map (fun seg => ⟨seg.lines.map condMutate⟩)⟩) := by
  induction fs with
  | nil =>
    intro ctx l fs' c' h
    simp only [map_flows, Except.ok.injEq, Prod.mk.injEq] at h
    obtain ⟨-, rfl, rfl⟩ := h
    rfl
  | cons f rest ih =>
    intro ctx l fs' c' h
    simp only [map_flows] at h
    split at h
    · exact absurd h (by simp)
    · rename_i l1 f1 c1 heq1
      split at h
      · exact absurd h (by simp)
      · rename_i l2 rest2 c2 heq2
        simp only [Except.ok.injEq, Prod.mk.injEq] at h
        obtain ⟨-, rfl, rfl⟩ := h
        simp only [map_flow] at heq1
        split at heq1
        · exact absurd heq1 (by simp)
        · rename_i l0 ss0 c0 heq0
          simp only [Except.ok.injEq, Prod.mk.injEq] at heq1
          obtain ⟨-, rfl, rfl⟩ := heq1
          obtain ⟨hs0, -⟩ := map_segments_spec heq0
          have hrest := ih heq2
          simp [hs0, hrest]

/-- C9: a token whose leading keyword resolves via the structural registry
to the block terminator makes the parser append a `BLOCK_END` node and
continue, whatever its line-state marker is — validation is skipped on that
path; on every other path an out-of-alphabet marker fails with
`ParseError("Invalid line_state: ...")` before anything else happens. -/
theorem c9_terminator_skips_line_state_validation (st : ParseState) (t : Token) :
    (structHit t = true →
      parseStep st t = .ok ⟨st.flowSegments, st.curLines ++ [Stmt.blockEnd t.line_state]⟩)
    ∧ (structHit t = false → t.line_state ∉ LINE_STATES →
      parseStep st t = .error ("Invalid line_state: " ++ t.line_state)) := by
  constructor
  · intro h
    simp [parseStep, h]
  · intro h h2
    simp [parseStep, h, h2]

/-- Witness for C9: `end` with the out-of-alphabet marker `@` parses to a
`BLOCK_END`, while `print` with `@` is rejected. -/
theorem c9_witness :
    parseStep ⟨[], []⟩ ⟨"end", [], "@"⟩ = .ok ⟨[], [Stmt.blockEnd "@"]⟩
    ∧ parseStep ⟨[], []⟩ ⟨"print", ["hi"], "@"⟩ = .error ("Invalid line_state: " ++ "@") :=
  ⟨(c9_terminator_skips_line_state_validation ⟨[], []⟩ ⟨"end", [], "@"⟩).1 (by decide),
   (c9_terminator_skips_line_state_validation ⟨[], []⟩ ⟨"print", ["hi"], "@"⟩).2 (by decide) (by decide)⟩

/-- C5 counterexample: a token whose leading keyword ends with a colon and
whose argument list contains the forward-arrow marker parses to a `Block`
statement, not an `Arrow` — the block-header branch runs (and `continue`s)
before arrow handling, so arrow detection does NOT precede block-header
detection as the claim states. -/
theorem c5_counterexample :
    parse_tokens [⟨"foo:", ["->", "bar"], "~"⟩]
      = .ok ⟨[⟨[⟨[Stmt.block "foo" "~"]⟩]⟩]⟩ := by decide

/-- C5 amended: the actual per-token resolution order is structural check,
line-state validation, block-header detection, arrow handling, legacy
fallback. EVERY non-structural token with a valid marker whose leading
keyword ends with a colon takes the block-header branch, appending the
colon-form continuation `Line` (`ELSE`/`TRY`/`FINALLY`) when the bare name
is one of the three continuation aliases and a generic `Block` otherwise —
never an `Arrow`, regardless of any arrow marker among its arguments. -/
theorem c5_amended_block_header_beats_arrow (st : ParseState) (t : Token)
    (h1 : structHit t = false) (h2 : t.line_state ∈ LINE_STATES)
    (h3 : py_endswith t.raw_action ":" = true) :
    parseStep st t
      = .ok ⟨st.flowSegments, st.curLines ++
          [if t.raw_action.dropRight 1 ∈ (["否则", "else"] : List String) then
            Stmt.line "ELSE" [] t.line_state
          else if t.raw_action.dropRight 1 ∈ (["试", "try"] : List String) then
            Stmt.line "TRY" [] t.line_state
          else if t.raw_action.dropRight 1 ∈ (["终于", "finally"] : List String) then
            Stmt.line "FINALLY" [] t.line_state
          else Stmt.block (t.raw_action.dropRight 1) t.line_state]⟩ := by
  by_cases b1 : t.raw_action.dropRight 1 ∈ (["否则", "else"] : List String)
  · simp [parseStep, h1, h2, h3, b1]
  · by_cases b2 : t.raw_action.dropRight 1 ∈ (["试", "try"] : List String)
    · simp [parseStep, h1, h2, h3, b1, b2]
    · by_cases b3 : t.raw_action.dropRight 1 ∈ (["终于", "finally"] : List String)
      · simp [parseStep, h1, h2, h3, b1, b2, b3]
      · simp [parseStep, h1, h2, h3, b1, b2, b3]

/-- Witness for C5 amended: both shapes of the claim's class carry an arrow
marker in their arguments — the counterexample token `foo:` becomes a
`Block`, and the colon-form `else:` becomes the continuation `Line ELSE`;
neither becomes an `Arrow`. -/
theorem c5_amended_witness :
    parseStep ⟨[], []⟩ ⟨"foo:", ["->", "bar"], "~"⟩
      = .ok ⟨[], [Stmt.block (("foo:" : String).dropRight 1) "~"]⟩
    ∧ parseStep ⟨[], []⟩ ⟨"else:", ["->", "bar"], "~"⟩
      = .ok ⟨[], [Stmt.line "ELSE" [] "~"]⟩ :=
  ⟨c5_amended_block_header_beats_arrow ⟨[], []⟩ ⟨"foo:", ["->", "bar"], "~"⟩
    (by decide) (by decide) (by decide),
   c5_amended_block_header_beats_arrow ⟨[], []⟩ ⟨"else:", ["->", "bar"], "~"⟩
    (by decide) (by decide) (by decide)⟩

/-- C3 counterexample: the colon-form `else:` token carries the closing
marker `">"` and produces an appended `Line` statement, yet the parser does
not push the current segment — the following `pass` lands in the same
segment, and at the single-step level the accumulator keeps its lines with
no segment pushed. The claim states every appended `Line` with the closing
marker pushes the segment, colon-form continuation keywords included. -/
theorem c3_counterexample :
    parse_tokens [⟨"else:", [], ">"⟩, ⟨"pass", [], "~"⟩]
      = .ok ⟨[⟨[⟨[Stmt.line "ELSE" [] ">", Stmt.line "PASS" [] "~"]⟩]⟩]⟩
    ∧ parseStep ⟨[], []⟩ ⟨"else:", [], ">"⟩ = .ok ⟨[], [Stmt.line "ELSE" [] ">"]⟩ := by
  constructor <;> decide

/-- C4 counterexample: after an explicit `BLOCK_END` sets the flag, a
subsequent `Arrow` statement leaves `last_was_block_end` true — the `Arrow`
branch of `map_statement` returns without touching the tracker, so
processing an `Arrow` does not reset the flag to false as the claim
states. -/
theorem c4_counterexample :
    map_stmts [Stmt.blockEnd "~", Stmt.arrow "a" "b" "->" "~"] ⟨0, false⟩
      = .ok ([], [Stmt.blockEnd "~", Stmt.arrow "a" "b" "->" "~"], ⟨0, true⟩) := by
  decide

/-- C4 amended: after `map_statement` processes a statement the flag is
true iff the statement was a `BLOCK_END`, except that an `Arrow` preserves
the incoming flag unchanged; `Line` and `Block` always reset it to false. -/
theorem c4_amended_flag_invariant (stmt : Stmt) (ctx : IndentContext)
    (l : List String) (s : Stmt) (ctx' : IndentContext)
    (h : map_statement stmt ctx = .ok (l, s, ctx')) :
    ctx'.last_was_block_end =
      (match stmt with
       | Stmt.blockEnd _ => true
       | Stmt.arrow _ _ _ _ => ctx.last_was_block_end
       | _ => false) := by
  cases stmt with
  | line a args ls =>
    simp only [map_statement] at h
    split at h
    · exact absurd h (by simp)
    · rename_i l1 s1 c heq
      simp only [Except.ok.injEq, Prod.mk.injEq] at h
      obtain ⟨-, -, rfl⟩ := h
      rfl
  | block n ls =>
    simp only [map_statement, Except.ok.injEq, Prod.mk.injEq] at h
    obtain ⟨-, -, rfl⟩ := h
    rfl
  | blockEnd ls =>
    simp only [map_statement, Except.ok.injEq, Prod.mk.injEq] at h
    obtain ⟨-, -, rfl⟩ := h
    rfl
  | arrow a b d ls =>
    simp only [map_statement, Except.ok.injEq, Prod.mk.injEq] at h
    obtain ⟨-, -, rfl⟩ := h
    rfl

/-- Witness for C4 amended: a `Block` statement resets the flag. -/
theorem c4_amended_witness :
    (⟨2, false⟩ : IndentContext).last_was_block_end =
      (match Stmt.block "n" "~" with
       | Stmt.blockEnd _ => true
       | Stmt.arrow _ _ _ _ => (⟨2, true⟩ : IndentContext).last_was_block_end
       | _ => false) :=
  c4_amended_flag_invariant (Stmt.block "n" "~") ⟨2, true⟩ [] (Stmt.block "n" "~") ⟨2, false⟩
    (by decide)

/-- C8: `map_print` with no arguments yields `print()`; with exactly one
syntactically valid identifier it yields `print(<arg>)`; in every other
non-empty case it joins the arguments with single spaces, escapes
backslashes and double quotes, and yields one string-literal print. The
last two conjuncts are the spec's round-trip scenarios A and B. -/
theorem c8_print_lowering :
    map_print [] = "print()"
    ∧ (∀ a : String, is_valid_identifier a = true → map_print [a] = "print(" ++ a ++ ")")
    ∧ (∀ args : List String, args ≠ [] →
        (∀ a : String, args = [a] → is_valid_identifier a = false) →
        map_print args = "print(\"" ++ escape_print (String.intercalate " " args) ++ "\")")
    ∧ map_print ["hello", "world"] = "print(\"hello world\")"
    ∧ map_print ["x"] = "print(x)" := by
  refine ⟨rfl, ?_, ?_, by decide, by decide⟩
  · intro a ha
    simp [map_print, ha]
  · intro args hne hsingle
    match args, hne with
    | [a], _ =>
      have := hsingle a rfl
      simp [map_print, this]
    | a :: b :: rest, _ =>
      simp [map_print]

/-- Witness for C8: one valid identifier (`qq`) goes through the variable
branch; one non-identifier argument (`a!`) goes through the literal
branch. -/
theorem c8_witness :
    map_print ["qq"] = "print(" ++ "qq" ++ ")"
    ∧ map_print ["a!"] = "print(\"" ++ escape_print (String.intercalate " " ["a!"]) ++ "\")" :=
  ⟨c8_print_lowering.2.1 "qq" (by decide),
   c8_print_lowering.2.2.1 ["a!"] (by decide)
     (by intro a ha; injection ha with h1 h2; subst h1; decide)⟩

/-- C6: `dedent()` saturates at zero (at level 0 it is a no-op, not an
error); lowering a `BLOCK_END` always succeeds (it produces no lines and
dedents); and no successful `map_statement` drives a non-negative tracker
level negative — so excess dedents leave output at zero indentation
instead of failing. -/
theorem c6_depth_saturates_nonnegative (f : Bool) (ls : String) (ctx : IndentContext)
    (stmt : Stmt) (l : List String) (s : Stmt) (ctx' : IndentContext) :
    IndentContext.dedent ⟨0, f⟩ = ⟨0, f⟩
    ∧ map_statement (Stmt.blockEnd ls) ctx = .ok ([], Stmt.blockEnd ls, ⟨ctx.dedent.level, true⟩)
    ∧ (0 ≤ ctx.level → map_statement stmt ctx = .ok (l, s, ctx') → 0 ≤ ctx'.level) := by
  refine ⟨?_, rfl, fun h0 hok => (map_statement_spec hok).2 h0⟩
  rfl

/-- Witness for C6: a `BLOCK_END` at level zero keeps the level at zero
and succeeds. -/
theorem c6_witness :
    IndentContext.dedent ⟨0, false⟩ = ⟨0, false⟩
    ∧ map_statement (Stmt.blockEnd "~") ⟨0, false⟩
        = .ok ([], Stmt.blockEnd "~", ⟨(IndentContext.dedent ⟨0, false⟩).level, true⟩)
    ∧ 0 ≤ (⟨0, true⟩ : IndentContext).level :=
  ⟨(c6_depth_saturates_nonnegative false "~" ⟨0, false⟩ (Stmt.blockEnd "~") [] (Stmt.blockEnd "~") ⟨0, true⟩).1,
   (c6_depth_saturates_nonnegative false "~" ⟨0, false⟩ (Stmt.blockEnd "~") [] (Stmt.blockEnd "~") ⟨0, true⟩).2.1,
   (c6_depth_saturates_nonnegative false "~" ⟨0, false⟩ (Stmt.blockEnd "~") [] (Stmt.blockEnd "~") ⟨0, true⟩).2.2
     (by decide) (by decide)⟩

/-- C2 counterexample: generation does modify the tree it consumes.
Lowering the program whose single statement is `Line IF ["x:"]` rewrites
the stored argument token `"x:"` to `"x"` (the in-place
`args[-1] = args[-1].rstrip(":")` of `build_condition`), so the post-call
tree differs from the input tree. -/
theorem c2_counterexample :
    map_program ⟨[⟨[⟨[Stmt.line "IF" ["x:"] "~"]⟩]⟩]⟩
      = .ok ("if x:", ⟨[⟨[⟨[Stmt.line "IF" ["x"] "~"]⟩]⟩]⟩)
    ∧ (⟨[⟨[⟨[Stmt.line "IF" ["x"] "~"]⟩]⟩]⟩ : Program) ≠ ⟨[⟨[⟨[Stmt.line "IF" ["x:"] "~"]⟩]⟩]⟩ := by
  constructor <;> decide

/-- C2 amended: the only mutation generation applies to the tree is
`build_condition`'s colon-strip of the last argument of `IF`/`ELIF`/`WHILE`
lines; every other statement, and every other field, is returned exactly as
parsed (`progMutate` is the identity except on those arguments). -/
theorem c2_amended_mutation (p : Program) (out : String) (p' : Program)
    (h : map_program p = .ok (out, p')) : p' = progMutate p := by
  simp only [map_program] at h
  split at h
  · exact absurd h (by simp)
  · rename_i lines flows' c heq
    simp only [Except.ok.injEq, Prod.mk.injEq] at h
    obtain ⟨-, rfl⟩ := h
    have := map_flows_spec heq
    simp [progMutate, this]

/-- Witness for C2 amended: the mutated `IF` program is exactly the
`progMutate` image of the input. -/
theorem c2_amended_witness :
    map_program ⟨[⟨[⟨[Stmt.line "IF" ["y:"] "~"]⟩]⟩]⟩
      = .ok ("if y:", ⟨[⟨[⟨[Stmt.line "IF" ["y"] "~"]⟩]⟩]⟩)
    ∧ (⟨[⟨[⟨[Stmt.line "IF" ["y"] "~"]⟩]⟩]⟩ : Program)
        = progMutate ⟨[⟨[⟨[Stmt.line "IF" ["y:"] "~"]⟩]⟩]⟩ :=
  ⟨by decide,
   c2_amended_mutation ⟨[⟨[⟨[Stmt.line "IF" ["y:"] "~"]⟩]⟩]⟩ "if y:"
     ⟨[⟨[⟨[Stmt.line "IF" ["y"] "~"]⟩]⟩]⟩ (by decide)⟩

/-- C1: for a `Line` whose action is one of the four continuation keywords,
`map_line_with_block_end_tracking` dedents exactly once before lowering iff
`last_was_block_end` is false (first conjunct: it equals plain `map_line`
on `ctx` when the flag is set and on `ctx.dedent` when it is not); and when
the flag is unset, lowering the continuation line produces the same result
as it would from the tracker state an explicit `BLOCK_END` leaves behind
(`⟨ctx.dedent.level, true⟩`, see the second conjunct of the C6 theorem) —
the continuation header lands on the same indentation prefix either way. -/
theorem c1_continuation_dedent_compensation (action : String) (args : List String)
    (ls : String) (ctx : IndentContext)
    (h : action ∈ (["ELIF", "ELSE", "EXCEPT", "FINALLY"] : List String)) :
    map_line_with_block_end_tracking (Stmt.line action args ls) ctx
      = map_line (Stmt.line action args ls) (if ctx.last_was_block_end then ctx else ctx.dedent)
    ∧ (ctx.last_was_block_end = false →
        map_statement (Stmt.line action args ls) ⟨ctx.dedent.level, true⟩
          = map_statement (Stmt.line action args ls) ctx) := by
  have hc : is_continuation (Stmt.line action args ls) = true := by
    simp only [is_continuation]
    exact decide_eq_true h
  constructor
  · simp only [map_line_with_block_end_tracking, hc, Bool.true_and]
    cases hb : ctx.last_was_block_end <;> simp [hb]
  · intro hf
    obtain ⟨lvl, flag⟩ := ctx
    simp only at hf
    subst hf
    fin_cases h
    · by_cases hargs : args = [] <;>
        simp [map_statement, map_line_with_block_end_tracking, is_continuation, map_line,
          map_elif, IndentContext.dedent, IndentContext.indent, IndentContext.get_indent, hargs]
    · simp [map_statement, map_line_with_block_end_tracking, is_continuation, map_line,
        map_else, IndentContext.dedent, IndentContext.indent, IndentContext.get_indent]
    · cases args <;>
        simp [map_statement, map_line_with_block_end_tracking, is_continuation, map_line,
          map_except, IndentContext.dedent, IndentContext.indent, IndentContext.get_indent]
    · simp [map_statement, map_line_with_block_end_tracking, is_continuation, map_line,
        map_finally, IndentContext.dedent, IndentContext.indent, IndentContext.get_indent]

/-- Witness for C1: the `ELSE` continuation at level 1 with the flag unset:
one dedent happens, and the result coincides with lowering from the
post-`BLOCK_END` state `⟨0, true⟩`. -/
theorem c1_witness :
    map_line_with_block_end_tracking (Stmt.line "ELSE" [] "~") ⟨1, false⟩
      = map_line (Stmt.line "ELSE" [] "~")
          (if (⟨1, false⟩ : IndentContext).last_was_block_end then ⟨1, false⟩
           else IndentContext.dedent ⟨1, false⟩)
    ∧ map_statement (Stmt.line "ELSE" [] "~") ⟨(IndentContext.dedent ⟨1, false⟩).level, true⟩
        = map_statement (Stmt.line "ELSE" [] "~") ⟨1, false⟩ :=
  ⟨(c1_continuation_dedent_compensation "ELSE" [] "~" ⟨1, false⟩ (by decide)).1,
   (c1_continuation_dedent_compensation "ELSE" [] "~" ⟨1, false⟩ (by decide)).2 (by decide)⟩

/-- C7: for the `SET` action with an arithmetic-operator alias in second
position, exactly 3 arguments or more than 4 arguments raise a
`GenerationError`; exactly 4 arguments with a valid identifier target emit
exactly one line `target = lowered(left) OP lowered(right)` with the
matching symbol; and an invalid identifier target always raises. The last
conjunct pins "exactly one line": dispatching a successful `SET` through
`map_statement` emits a single output line and leaves the tracker level
unchanged. -/
theorem c7_set_arithmetic_arity (xs : List String) (op sym name left right : String)
    (rest : List String) (ls : String) (ctx : IndentContext) (v : String) :
    (xs.length = 3 → xs.getD 1 "" = op →
      op ∈ (["加", "add", "减", "sub", "乘", "mul", "除", "div"] : List String) →
      ∃ e, map_set xs = .error e)
    ∧ (4 < xs.length → xs.getD 1 "" = op →
      op ∈ (["加", "add", "减", "sub", "乘", "mul", "除", "div"] : List String) →
      ∃ e, map_set xs = .error e)
    ∧ ((op, sym) ∈ ([("加", "+"), ("add", "+"), ("减", "-"), ("sub", "-"),
        ("乘", "*"), ("mul", "*"), ("除", "/"), ("div", "/")] : List (String × String)) →
      is_valid_identifier name = true →
      map_set [name, op, left, right]
        = .ok (name ++ " = " ++ to_py_value left ++ " " ++ sym ++ " " ++ to_py_value right))
    ∧ (is_valid_identifier name = false → ∃ e, map_set (name :: rest) = .error e)
    ∧ (map_set xs = .ok v →
      map_statement (Stmt.line "SET" xs ls) ctx
        = .ok ([ctx.get_indent ++ v], Stmt.line "SET" xs ls, ⟨ctx.level, false⟩)) := by
  refine ⟨?_, ?_, ?_, ?_, ?_⟩
  · intro hlen hop hmem
    match xs, hlen with
    | [a, b, c], _ =>
      simp only [List.getD] at hop
      subst hop
      by_cases hv : is_valid_identifier a
      · fin_cases hmem <;> exact ⟨_, by simp [map_set, hv]; rfl⟩
      · exact ⟨_, by simp [map_set, hv]; rfl⟩
  · intro hlen hop hmem
    match xs, hlen with
    | a :: b :: c :: d :: e :: rest, _ =>
      simp only [List.getD] at hop
      subst hop
      by_cases hv : is_valid_identifier a
      · have hne : (a :: b :: c :: d :: e :: rest).length ≠ 4 := by simp
        fin_cases hmem <;> exact ⟨_, by simp [map_set, hv, hne]; rfl⟩
      · exact ⟨_, by simp [map_set, hv]; rfl⟩
  · intro hmem hname
    fin_cases hmem <;> simp [map_set, hname, String.append_assoc]
  · intro hname
    cases rest with
    | nil => exact ⟨_, by simp [map_set]; rfl⟩
    | cons b bs => exact ⟨_, by simp [map_set, hname]; rfl⟩
  · intro hok
    simp [map_statement, map_line_with_block_end_tracking, is_continuation, map_line, hok]

/-- Witness for C7: `set r add 2` fails, `set r add 2 3 4` fails,
`set r add 2 3` emits `r = 2 + 3` as one line at level 0, and an invalid
target fails. -/
theorem c7_witness :
    (∃ e, map_set ["r", "add", "2"] = .error e)
    ∧ (∃ e, map_set ["r", "add", "2", "3", "4"] = .error e)
    ∧ map_set ["r", "add", "2", "3"]
        = .ok ("r" ++ " = " ++ to_py_value "2" ++ " " ++ "+" ++ " " ++ to_py_value "3")
    ∧ (∃ e, map_set ("1bad" :: ["5"]) = .error e)
    ∧ map_statement (Stmt.line "SET" ["r", "add", "2", "3"] "~") ⟨0, false⟩
        = .ok ([(⟨0, false⟩ : IndentContext).get_indent ++ "r = 2 + 3"],
            Stmt.line "SET" ["r", "add", "2", "3"] "~", ⟨0, false⟩) :=
  ⟨(c7_set_arithmetic_arity ["r", "add", "2"] "add" "+" "r" "2" "3" [] "~" ⟨0, false⟩ "").1
      (by decide) (by decide) (by decide),
   (c7_set_arithmetic_arity ["r", "add", "2", "3", "4"] "add" "+" "r" "2" "3" [] "~" ⟨0, false⟩ "").2.1
      (by decide) (by decide) (by decide),
   (c7_set_arithmetic_arity [] "add" "+" "r" "2" "3" [] "~" ⟨0, false⟩ "").2.2.1
      (by decide) (by decide),
   (c7_set_arithmetic_arity [] "add" "+" "1bad" "2" "3" ["5"] "~" ⟨0, false⟩ "").2.2.2.1
      (by decide),
   (c7_set_arithmetic_arity ["r", "add", "2", "3"] "add" "+" "r" "2" "3" [] "~" ⟨0, false⟩ "r = 2 + 3").2.2.2.2
      (by decide)⟩

lemma closeSegment_push (segs : List Segment) (cur : List Stmt) :
    closeSegment ⟨segs, cur⟩ ">" = ⟨segs ++ [⟨cur⟩], []⟩ := by
  simp [closeSegment]

/-- Every successful parser step appends exactly one statement to the
current segment, and either leaves the pushed segments alone or pushes the
(now non-empty) current segment and starts a fresh one. -/
lemma parseStep_shape {st : ParseState} {t : Token} {st' : ParseState}
    (h : parseStep st t = .ok st') :
    ∃ stmt, st' = ⟨st.flowSegments, st.curLines ++ [stmt]⟩
          ∨ st' = ⟨st.flowSegments ++ [⟨st.curLines ++ [stmt]⟩], []⟩ := by
  simp only [parseStep] at h
  split at h
  · simp only [Except.ok.injEq] at h
    exact ⟨_, Or.inl h.symm⟩
  · split at h
    · exact absurd h (by simp)
    · split at h
      · -- colon block-header branch
        split at h
        · simp only [Except.ok.injEq] at h
          exact ⟨_, Or.inl h.symm⟩
        · split at h
          · simp only [Except.ok.injEq] at h
            exact ⟨_, Or.inl h.symm⟩
          · split at h
            · simp only [Except.ok.injEq] at h
              exact ⟨_, Or.inl h.symm⟩
            · simp only [Except.ok.injEq] at h
              exact ⟨_, Or.inl h.symm⟩
      · split at h
        · -- arrow branch
          split at h
          · exact absurd h (by simp)
          · simp only [Except.ok.injEq] at h
            subst h
            unfold closeSegment
            split
            · exact ⟨_, Or.inr rfl⟩
            · exact ⟨_, Or.inl rfl⟩
        · -- legacy branch
          split at h
          · exact absurd h (by simp)
          · simp only [Except.ok.injEq] at h
            subst h
            unfold closeSegment
            split
            · exact ⟨_, Or.inr rfl⟩
            · exact ⟨_, Or.inl rfl⟩

/-- C3 counterpart, amended: the segment-closing check runs only on the
arrow and legacy-action paths. A non-structural, non-colon token with the
closing marker `">"` pushes the freshly extended segment and clears the
accumulator; a colon-form token (`else:`/`try:`/`finally:`/generic block)
never pushes, whatever its marker. -/
theorem c3_amended_push (st : ParseState) (t : Token) (st' : ParseState)
    (h : parseStep st t = .ok st') :
    (structHit t = false → py_endswith t.raw_action ":" = false → t.line_state = ">" →
      ∃ stmt, st' = ⟨st.flowSegments ++ [⟨st.curLines ++ [stmt]⟩], []⟩)
    ∧ (py_endswith t.raw_action ":" = true → st'.flowSegments = st.flowSegments) := by
  constructor
  · intro h1 h2 h3
    simp only [parseStep, h1, h2, h3, Bool.false_eq_true, if_false] at h
    rw [if_neg (by decide)] at h
    split at h
    · split at h
      · exact absurd h (by simp)
      · simp only [Except.ok.injEq] at h
        subst h
        exact ⟨_, closeSegment_push _ _⟩
    · split at h
      · exact absurd h (by simp)
      · simp only [Except.ok.injEq] at h
        subst h
        exact ⟨_, closeSegment_push _ _⟩
  · intro h2
    cases h1 : structHit t
    · simp only [parseStep, h1, h2, Bool.false_eq_true, if_false, if_true] at h
      split at h
      · exact absurd h (by simp)
      · repeat' split at h
        all_goals
          simp only [Except.ok.injEq] at h
          subst h
          rfl
    · simp only [parseStep, h1, if_true] at h
      simp only [Except.ok.injEq] at h
      subst h
      rfl

/-- Witness for C3 amended: a legacy `print` line with the closing marker
pushes the current segment. -/
theorem c3_amended_witness :
    ∃ stmt, (⟨[⟨[Stmt.line "PASS" [] "~", Stmt.line "PRINT" ["hi"] ">"]⟩], []⟩ : ParseState)
      = ⟨([] : List Segment) ++ [⟨[Stmt.line "PASS" [] "~"] ++ [stmt]⟩], []⟩ :=
  (c3_amended_push ⟨[], [Stmt.line "PASS" [] "~"]⟩ ⟨"print", ["hi"], ">"⟩
      ⟨[⟨[Stmt.line "PASS" [] "~", Stmt.line "PRINT" ["hi"] ">"]⟩], []⟩ (by decide)).1
    (by decide) (by decide) rfl

/-- Loop invariant for `parse_tokens`: pushed segments stay non-empty, a
non-trivial accumulator stays non-trivial, and processing at least one
token makes the accumulator non-trivial. -/
lemma parseLoop_inv {ts : List Token} : ∀ {st st' : ParseState},
    parseLoop ts st = .ok st' →
    (∀ seg ∈ st.flowSegments, seg.lines ≠ []) →
    (∀ seg ∈ st'.flowSegments, seg.lines ≠ [])
    ∧ ((st.flowSegments ≠ [] ∨ st.curLines ≠ []) →
        (st'.flowSegments ≠ [] ∨ st'.curLines ≠ []))
    ∧ (ts ≠ [] → (st'.flowSegments ≠ [] ∨ st'.curLines ≠ [])) := by
  induction ts with
  | nil =>
    intro st st' h hI
    simp only [parseLoop, Except.ok.injEq] at h
    subst h
    exact ⟨hI, id, by simp⟩
  | cons t ts ih =>
    intro st st' h hI
    simp only [parseLoop] at h
    split at h
    · exact absurd h (by simp)
    · rename_i st1 heq
      obtain ⟨stmt, hsh | hsh⟩ := parseStep_shape heq
      · subst hsh
        obtain ⟨a, b, -⟩ := ih h hI
        exact ⟨a, fun _ => b (Or.inr (by simp)), fun _ => b (Or.inr (by simp))⟩
      · subst hsh
        have hI1 : ∀ seg ∈ st.flowSegments ++ [Segment.mk (st.curLines ++ [stmt])],
            seg.lines ≠ [] := by
          intro seg hseg
          rcases List.mem_append.mp hseg with hold | hnew
          · exact hI seg hold
          · simp only [List.mem_singleton] at hnew
            subst hnew
            simp
        obtain ⟨a, b, -⟩ := ih h hI1
        exact ⟨a, fun _ => b (Or.inl (by simp)), fun _ => b (Or.inl (by simp))⟩

/-- C10: in a successfully parsed program every flow has at least one
segment and every segment at least one statement, and the program contains
a flow iff the token stream was non-empty — equivalently (each successful
token appends exactly one statement, see `parseStep_shape`) iff at least
one statement was produced. -/
theorem c10_segments_nonempty_flow_iff (tokens : List Token) (p : Program)
    (h : parse_tokens tokens = .ok p) :
    (∀ f ∈ p.flows, f.segments ≠ [] ∧ ∀ seg ∈ f.segments, seg.lines ≠ [])
    ∧ (p.flows ≠ [] ↔ tokens ≠ []) := by
  simp only [parse_tokens] at h
  split at h
  · exact absurd h (by simp)
  · rename_i st hloop
    simp only [Except.ok.injEq] at h
    subst h
    cases tokens with
    | nil =>
      simp only [parseLoop, Except.ok.injEq] at hloop
      subst hloop
      constructor
      · intro f hf
        simp at hf
      · simp
    | cons t ts =>
      obtain ⟨hall, -, hne⟩ := parseLoop_inv hloop (by simp)
      have hJ := hne (by simp)
      by_cases hcur : st.curLines = []
      · rcases hJ with hfs | hcl
        · constructor
          · intro f hf
            simp [hcur, hfs] at hf
            subst hf
            exact ⟨hfs, hall⟩
          · simp [hcur, hfs]
        · exact absurd hcur hcl
      · constructor
        · intro f hf
          simp only [hcur, ne_eq, not_false_eq_true, if_true] at hf
          rw [if_pos (by simp)] at hf
          simp only [List.mem_singleton] at hf
          subst hf
          refine ⟨by simp, ?_⟩
          intro seg hseg
          rcases List.mem_append.mp hseg with hold | hnew
          · exact hall seg hold
          · simp only [List.mem_singleton] at hnew
            subst hnew
            exact hcur
        · constructor
          · intro _
            simp
          · intro _
            simp only [hcur, ne_eq, not_false_eq_true, if_true]
            rw [if_pos (by simp)]
            simp

/-- Witness for C10: parsing a single `pass` token yields one flow with
one non-empty segment. -/
theorem c10_witness :
    (∀ f ∈ (Program.mk [⟨[⟨[Stmt.line "PASS" [] "~"]⟩]⟩]).flows,
      f.segments ≠ [] ∧ ∀ seg ∈ f.segments, seg.lines ≠ [])
    ∧ ((Program.mk [⟨[⟨[Stmt.line "PASS" [] "~"]⟩]⟩]).flows ≠ []
        ↔ ([⟨"pass", [], "~"⟩] : List Token) ≠ []) :=
  c10_segments_nonempty_flow_iff [⟨"pass", [], "~"⟩] ⟨[⟨[⟨[Stmt.line "PASS" [] "~"]⟩]⟩]⟩
    (by decide)

end Catapillar
